import Mathlib

/-!
Verification of the tweet_bot repository's data-extraction and
normalization core against its specification.

The repository holds three revisions of the same program:
src/tweet_bot.py (called v0 below), src/tweet_bot/tweet_bot.py (v1),
and src/api/index.py (the api revision).  The definitions below are
shallow embeddings of the pure extraction, aggregation and formatting
logic of those files; network transport and image rendering are
modelled by passing each function the data its network call produced
(the page text after soup.get_text(), the ticker history the provider
returned, and so on).  Python floats are modelled as exact rationals;
Python dicts (whose keys preserve insertion order) are modelled as
association lists in insertion order.
-/

set_option maxRecDepth 100000

namespace TweetBot

/-- ASCII whitespace characters recognized by the regex class of white space. -/
def isSpaceChar (c : Char) : Bool :=
  c == ' ' || c == '\t' || c == '\n' || c == '\r' || c == '\x0b' || c == '\x0c'

/-- Word characters recognized by the word regex class (ASCII fragment). -/
def isWordChar (c : Char) : Bool := c.isAlphanum || c == '_'

/-- Decimal digit characters, the digit regex class. -/
def isDigitChar (c : Char) : Bool := c.isDigit

/-- Characters of the regex class of digits and commas. -/
def isDigitOrComma (c : Char) : Bool := c.isDigit || c == ','

/-- Characters of the regex class of the two sign characters. -/
def isSignChar (c : Char) : Bool := c == '+' || c == '-'

/-- Abstract syntax of the regular-expression fragment the bot uses:
literals, counted character classes (covering the optional, star, plus and
counted quantifiers), numbered capturing groups, alternation and
concatenation. -/
inductive RE where
  | lit : List Char → RE
  | cls : (Char → Bool) → Nat → Option Nat → RE
  | grp : Nat → RE → RE
  | alt : RE → RE → RE
  | seq : RE → RE → RE

/-- All ways a counted character class can consume a prefix of the input,
returned as the remaining suffixes, greedily ordered (longest consumption
first), exactly the alternatives a backtracking engine tries. -/
def clsRests (p : Char → Bool) (lo : Nat) (hi : Option Nat) (cs : List Char) : List (List Char) :=
  let m := (cs.takeWhile p).length
  let top := match hi with
    | none => m
    | some h => min h m
  if top < lo then []
  else (List.range (top + 1 - lo)).map (fun i => cs.drop (top - i))

/-- Backtracking matcher: all matches of `r` at the start of `cs`, in the
priority order of Python's engine (greedy quantifiers, left-first
alternation); each result pairs the captures with the rest of the input. -/
def matchRE : RE → List Char → List (List (Nat × List Char) × List Char)
  | RE.lit l, cs => if l.isPrefixOf cs then [([], cs.drop l.length)] else []
  | RE.cls p lo hi, cs => (clsRests p lo hi cs).map (fun rest => ([], rest))
  | RE.grp n r, cs =>
      (matchRE r cs).map (fun pr => (pr.1 ++ [(n, cs.take (cs.length - pr.2.length))], pr.2))
  | RE.alt a b, cs => matchRE a cs ++ matchRE b cs
  | RE.seq a b, cs =>
      (matchRE a cs).flatMap (fun pr =>
        (matchRE b pr.2).map (fun qr => (pr.1 ++ qr.1, qr.2)))

/-- Python re.search semantics: try every start position from the left and
return the captures of the highest-priority match at the first position
where the pattern matches. -/
def research (r : RE) : List Char → Option (List (Nat × List Char))
  | [] => ((matchRE r []).head?).map Prod.fst
  | c :: t =>
    match (matchRE r (c :: t)).head? with
    | some pr => some pr.1
    | none => research r t

/-- The text captured by group `n` of a match. -/
def getCap (caps : List (Nat × List Char)) (n : Nat) : String :=
  match caps.find? (fun pr => pr.1 == n) with
  | some pr => String.mk pr.2
  | none => ""

/-- Concatenation of a list of fragments. -/
def reCat (rs : List RE) : RE := rs.foldr RE.seq (RE.lit [])

/-- Zero or more whitespace characters. -/
def reWS : RE := RE.cls isSpaceChar 0 none

/-- The grouped numeric value of every currency figure: one or more digits
or commas, an optional decimal point, then zero or more digits. -/
def reNum : RE :=
  reCat [RE.cls isDigitOrComma 1 none, RE.cls (fun c => c == '.') 0 (some 1),
         RE.cls isDigitChar 0 none]

/-- The date pattern: the literal "as on " followed by one captured group of
three word characters, a space, one or two digits, a comma-space, and four
digits. -/
def reDate : RE :=
  RE.seq (RE.lit "as on ".data)
    (RE.grp 1 (reCat [RE.cls isWordChar 3 (some 3), RE.lit " ".data,
      RE.cls isDigitChar 1 (some 2), RE.lit ", ".data, RE.cls isDigitChar 4 (some 4)]))

/-- The "Positions Added" pattern: label, optional white space, an optional
plus sign (consumed, not captured), the currency sign, optional white
space, the captured numeric value, optional white space, and the unit. -/
def rePosAdded : RE :=
  reCat [RE.lit "Positions Added:".data, reWS, RE.cls (fun c => c == '+') 0 (some 1),
         RE.lit "₹".data, reWS, RE.grp 1 reNum, reWS, RE.lit "Cr".data]

/-- The api revision's "Positions Liquidated" pattern: the optional sign is
captured as group 1 and the numeric value as group 2. -/
def rePosLiq : RE :=
  reCat [RE.lit "Positions Liquidated:".data, reWS, RE.grp 1 (RE.cls isSignChar 0 (some 1)),
         reWS, RE.lit "₹".data, reWS, RE.grp 2 reNum, reWS, RE.lit "Cr".data]

/-- The polymorphic net-book label of the api revision: the literal
"Net Book " followed by either "Added" or "Liquidated". -/
def reNetBookLabel : RE :=
  RE.seq (RE.lit "Net Book ".data)
    (RE.alt (RE.lit "Added".data) (RE.lit "Liquidated".data))

/-- The api revision's net-book pattern: the label is captured as group 1,
the optional sign as group 2 and the numeric value as group 3. -/
def reNetBook : RE :=
  reCat [RE.grp 1 reNetBookLabel,
         RE.lit ":".data, reWS, RE.grp 2 (RE.cls isSignChar 0 (some 1)),
         reWS, RE.lit "₹".data, reWS, RE.grp 3 reNum, reWS, RE.lit "Cr".data]

/-- The "Industry MTF Book" pattern (no sign). -/
def reIndustry : RE :=
  reCat [RE.lit "Industry MTF Book:".data, reWS, RE.lit "₹".data, reWS,
         RE.grp 1 reNum, reWS, RE.lit "Cr".data]

/-- The v0/v1 "Positions Liquidated" pattern: an optional minus sign is
consumed without being captured. -/
def rePosLiqV1 : RE :=
  reCat [RE.lit "Positions Liquidated:".data, reWS, RE.cls (fun c => c == '-') 0 (some 1),
         RE.lit "₹".data, reWS, RE.grp 1 reNum, reWS, RE.lit "Cr".data]

/-- The v0/v1 net-book pattern: the label "Net Book Added" is hardcoded and
an optional sign is consumed without being captured. -/
def reNetBookV1 : RE :=
  reCat [RE.lit "Net Book Added:".data, reWS, RE.cls isSignChar 0 (some 1),
         RE.lit "₹".data, reWS, RE.grp 1 reNum, reWS, RE.lit "Cr".data]

/-- Association-list model of a Python dict lookup `data[k]` as an option
(first binding wins; the dicts built by the bot have distinct keys). -/
def lookupQ {α : Type} (data : List (String × α)) (k : String) : Option α :=
  (data.find? (fun p => p.1 == k)).map Prod.snd

/-- Python `data.get(k, d)`. -/
def lookupD {α : Type} (data : List (String × α)) (k : String) (d : α) : α :=
  (lookupQ data k).getD d

/-- fetch_mtf_data of src/api/index.py, applied to the page text its
network call produced (everything after soup.get_text()): the date
degrades to "Date not found", the net-book label is detected dynamically
and inserted with the captured sign prepended to the value, the three
fixed figures follow in dict-insertion order ("Positions Liquidated" with
its captured sign prepended), and any missing currency figure makes the
whole extraction return nothing. -/
def fetch_mtf_data (page_text : String) : Option (List (String × String)) :=
  let cs := page_text.data
  let report_date : String :=
    match research reDate cs with
    | some caps => getCap caps 1
    | none => "Date not found"
  match research reNetBook cs with
  | none => none
  | some capsNB =>
    match research rePosAdded cs with
    | none => none
    | some capsPA =>
      match research rePosLiq cs with
      | none => none
      | some capsPL =>
        match research reIndustry cs with
        | none => none
        | some capsI =>
          some [("date", report_date),
                (getCap capsNB 1, "₹" ++ getCap capsNB 2 ++ getCap capsNB 3 ++ " Cr"),
                ("Positions Added", "₹" ++ getCap capsPA 1 ++ " Cr"),
                ("Positions Liquidated", "₹" ++ getCap capsPL 1 ++ getCap capsPL 2 ++ " Cr"),
                ("Industry MTF Book", "₹" ++ getCap capsI 1 ++ " Cr")]

/-- fetch_mtf_data of src/tweet_bot/tweet_bot.py (v1): the date degrades to
"Date not found"; the four fixed patterns are tried in dict order and any
missing figure makes the extraction return nothing; captured signs are
never re-attached because the v1 patterns consume them outside the group. -/
def fetch_mtf_data_v1 (page_text : String) : Option (List (String × String)) :=
  let cs := page_text.data
  let report_date : String :=
    match research reDate cs with
    | some caps => getCap caps 1
    | none => "Date not found"
  match research rePosAdded cs with
  | none => none
  | some capsPA =>
    match research rePosLiqV1 cs with
    | none => none
    | some capsPL =>
      match research reNetBookV1 cs with
      | none => none
      | some capsNB =>
        match research reIndustry cs with
        | none => none
        | some capsI =>
          some [("date", report_date),
                ("Positions Added", "₹" ++ getCap capsPA 1 ++ " Cr"),
                ("Positions Liquidated", "₹" ++ getCap capsPL 1 ++ " Cr"),
                ("Net Book Added", "₹" ++ getCap capsNB 1 ++ " Cr"),
                ("Net Industry MTF Book", "₹" ++ getCap capsI 1 ++ " Cr")]

/-- fetch_mtf_data of src/tweet_bot.py (v0), applied to the page text its
network call produced: a record is always returned; a missing date is
replaced by the hardcoded date "Jul 18, 2025" and every missing currency
figure by the placeholder "N/A". -/
def fetch_mtf_data_v0 (page_text : String) : List (String × String) :=
  let cs := page_text.data
  let report_date : String :=
    match research reDate cs with
    | some caps => getCap caps 1
    | none => "Jul 18, 2025"
  [("date", report_date),
   ("Positions Added",
     match research rePosAdded cs with
     | some caps => "₹" ++ getCap caps 1 ++ " Cr"
     | none => "N/A"),
   ("Positions Liquidated",
     match research rePosLiqV1 cs with
     | some caps => "₹" ++ getCap caps 1 ++ " Cr"
     | none => "N/A"),
   ("Net Book Added",
     match research reNetBookV1 cs with
     | some caps => "₹" ++ getCap caps 1 ++ " Cr"
     | none => "N/A"),
   ("Net Industry MTF Book",
     match research reIndustry cs with
     | some caps => "₹" ++ getCap caps 1 ++ " Cr"
     | none => "N/A")]

/-- The literal fabricated page text of the specification's test property. -/
def mtfSampleText : String :=
  "...as on Jul 18, 2025...Positions Added: +₹6,614.35 Cr...Positions Liquidated: -₹6,085.26 Cr...Net Book Added: +₹529.10 Cr...Industry MTF Book: ₹88,878.24 Cr..."

/-- The record fetch_mtf_data actually extracts from the literal fabricated
page text. -/
def mtfSampleActual : List (String × String) :=
  [("date", "Jul 18, 2025"),
   ("Net Book Added", "₹+529.10 Cr"),
   ("Positions Added", "₹6,614.35 Cr"),
   ("Positions Liquidated", "₹-6,085.26 Cr"),
   ("Industry MTF Book", "₹88,878.24 Cr")]

/-- A page text carrying all figures except "Industry MTF Book". -/
def mtfTextNoIndustry : String :=
  "as on Jul 18, 2025 Positions Added: +₹1.00 Cr Positions Liquidated: -₹2.00 Cr Net Book Added: +₹3.00 Cr"

/-- A page text on a liquidation day: the net-book label reads
"Net Book Liquidated". -/
def mtfSampleTextLiq : String :=
  "as on Dec 03, 2025 Positions Added: +₹1.00 Cr Positions Liquidated: -₹2.00 Cr Net Book Liquidated: -₹3.00 Cr Industry MTF Book: ₹4.00 Cr"

/-- A page text carrying all four currency figures but no date. -/
def mtfTextNoDate : String :=
  "Positions Added: +₹1.00 Cr Positions Liquidated: -₹2.00 Cr Net Book Added: +₹3.00 Cr Industry MTF Book: ₹4.00 Cr"

/-- Round a rational to the nearest integer, ties to even — the rounding
Python applies when formatting a float with two decimal places (the float
itself is modelled as the exact rational it denotes). -/
def rhe (q : ℚ) : ℤ :=
  let f : ℤ := Int.fdiv q.num q.den
  let r : ℚ := q - (f : ℚ)
  if r < 1 / 2 then f
  else if 1 / 2 < (r : ℚ) then f + 1
  else if f % 2 = 0 then f else f + 1

/-- The decimal digit character of `n % 10`. -/
def decDigit (n : ℕ) : Char := Char.ofNat (48 + n % 10)

/-- Fuelled accumulator loop producing the decimal digits of a natural. -/
def natDigitsAux : ℕ → ℕ → List Char → List Char
  | 0, _, acc => acc
  | fuel + 1, n, acc =>
    if n < 10 then decDigit n :: acc
    else natDigitsAux fuel (n / 10) (decDigit (n % 10) :: acc)

/-- The decimal digits of a natural number, most significant first. -/
def natDigits (n : ℕ) : List Char := natDigitsAux (n + 1) n []

/-- Insert a comma after every three characters of a reversed digit list. -/
def group3Rev : List Char → List Char
  | a :: b :: c :: d :: rest => a :: b :: c :: ',' :: group3Rev (d :: rest)
  | l => l

/-- Group a digit list in threes from the right with comma separators. -/
def groupThousands (ds : List Char) : List Char := (group3Rev ds.reverse).reverse

/-- The two fractional digit characters of a number of cents below 100. -/
def twoFrac (k : ℕ) : List Char := [decDigit (k / 10), decDigit (k % 10)]

/-- Python float formatting with comma grouping and two decimals, on the
exact rational value: optional minus sign, grouped integer digits, a
point, and exactly two fractional digits. -/
def fmtThousands2 (q : ℚ) : String :=
  let n := (rhe (|q| * 100)).toNat
  String.mk ((if q < 0 then ['-'] else []) ++
    groupThousands (natDigits (n / 100)) ++ '.' :: twoFrac (n % 100))

/-- Python float formatting with a forced sign, two decimals and a percent
suffix, on the exact rational value. -/
def fmtSignedPct (q : ℚ) : String :=
  let n := (rhe (|q| * 100)).toNat
  String.mk ((if q < 0 then ['-'] else ['+']) ++
    natDigits (n / 100) ++ '.' :: twoFrac (n % 100) ++ ['%'])

/-- get_yfinance_data of src/tweet_bot/tweet_bot.py (v1), applied to the
closing prices its two-day history query returned, oldest first: with
fewer than two points it returns nothing, otherwise a quote formatted from
the last close and the percent change against the second-to-last close. -/
def get_yfinance_data (hist : List ℚ) : Option (String × String) :=
  if hist.length < 2 then none
  else
    match hist.reverse with
    | cur :: prev :: _ => some (fmtThousands2 cur, fmtSignedPct ((cur - prev) / prev * 100))
    | _ => none

/-- get_yfinance_data of src/api/index.py: the one-month history may carry
null rows, which are dropped first; then as in v1. -/
def get_yfinance_data_api (hist : List (Option ℚ)) : Option (String × String) :=
  if (hist.filterMap id).length < 2 then none
  else
    match (hist.filterMap id).reverse with
    | cur :: prev :: _ => some (fmtThousands2 cur, fmtSignedPct ((cur - prev) / prev * 100))
    | _ => none

/-- Shape of a well-formed signed percent string: a sign, a nonempty run of
digits, a point, exactly two digits, and the percent suffix. -/
def signedTwoDecPct (s : String) : Prop :=
  ∃ sgn ip a b, s.data = sgn :: (ip ++ '.' :: [a, b, '%']) ∧
    (sgn = '+' ∨ sgn = '-') ∧ ip ≠ [] ∧ ip.all isDigitChar = true ∧
    isDigitChar a = true ∧ isDigitChar b = true

/-- Shape of a string ending in a point followed by exactly two digits. -/
def twoDecTail (s : String) : Prop :=
  ∃ t a b, s.data = t ++ '.' :: [a, b] ∧ isDigitChar a = true ∧ isDigitChar b = true

/-- get_yfinance_data of src/tweet_bot.py (v0): with fewer than two points
it returns the placeholder quote ("N/A", "+0.00%") instead of failing. -/
def get_yfinance_data_v0 (hist : List ℚ) : String × String :=
  if hist.length < 2 then ("N/A", "+0.00%")
  else
    match hist.reverse with
    | cur :: prev :: _ => (fmtThousands2 cur, fmtSignedPct ((cur - prev) / prev * 100))
    | _ => ("N/A", "+0.00%")

/-- The ticker dict of fetch_global_market_data, in insertion order. -/
def tickers : List (String × String) :=
  [("Nikkei 225", "^N225"), ("Dow Jones Futures", "YM=F"),
   ("S&P 500", "^GSPC"), ("Nasdaq", "^IXIC"), ("Hang Seng", "^HSI")]

/-- The fixed presentation order of the six snapshot labels. -/
def globalLabels : List String :=
  ["GIFTNIFTY", "Nikkei 225", "Dow Jones Futures", "S&P 500", "Nasdaq", "Hang Seng"]

/-- The ticker loop of fetch_global_market_data (v1): each symbol is
resolved through the quote fetcher, a failed symbol aborts the whole
aggregation, and successful quotes are recorded in loop order. -/
def fetchTickers (yfd : String → Option (String × String)) :
    List (String × String) → Option (List (String × (String × String)))
  | [] => some []
  | (name, symbol) :: rest =>
    match yfd symbol with
    | none => none
    | some vc => (fetchTickers yfd rest).map (fun d => (name, vc) :: d)

/-- fetch_global_market_data of src/tweet_bot/tweet_bot.py (v1, the strict
policy), parameterized by the results of its two collaborators: the GIFT
NIFTY scrape result and the per-symbol quote fetcher.  A failed GIFT NIFTY
scrape or any failed ticker aborts the whole aggregation; otherwise the
snapshot lists GIFTNIFTY first and the tickers in dict order. -/
def fetch_global_market_data (gift : Option (String × String))
    (yfd : String → Option (String × String)) :
    Option (List (String × (String × String))) :=
  match gift with
  | none => none
  | some gq => (fetchTickers yfd tickers).map (fun d => ("GIFTNIFTY", gq) :: d)

/-- The fixed hashtag suffix of the global caption. -/
def globalHashtags : String := "\n#GIFTNIFTY #Nifty #DowJones #Nasdaq #Nikkei #HangSeng"

/-- The list `lines` built by the global branch of build_tweet_text (the
same in all three revisions), with the current date passed in: a header,
one line per fixed label (absent labels default to "N/A" and "+0.00%"),
and the hashtag suffix. -/
def build_tweet_lines_global (today : String)
    (data : List (String × (String × String))) : List String :=
  ("Global Market Update – " ++ today ++ "\n") ::
  globalLabels.map (fun key =>
    let vc := lookupD data key ("N/A", "+0.00%")
    key ++ (": " ++ vc.1 ++ " (" ++ vc.2 ++ ")"))
  ++ [globalHashtags]

/-- The global branch of build_tweet_text: the lines joined by newlines. -/
def build_tweet_text_global (today : String)
    (data : List (String × (String × String))) : String :=
  String.intercalate "\n" (build_tweet_lines_global today data)

/-- Observable steps of one run of main (v1) after the fetch. -/
inductive Ev where
  | imageCreated
  | textSaved
  | posted
  | localTestNote
  deriving DecidableEq, Repr

/-- Outcome of one run of main (v1): the observable steps it performed and
whether it aborted with a failure exit. -/
structure RunResult where
  events : List Ev
  failed : Bool
  deriving DecidableEq, Repr

/-- The control flow of main in src/tweet_bot/tweet_bot.py (v1) after the
job's fetch returned: a missing fetch result aborts with exit code 1
before any image is created or any post is attempted; otherwise the image
is created, the caption is saved, and the post happens only under the
post flag. -/
def main_run {α : Type} (data : Option α) (post : Bool) : RunResult :=
  match data with
  | none => ⟨[], true⟩
  | some _ =>
    ⟨[Ev.imageCreated, Ev.textSaved] ++ (if post then [Ev.posted] else [Ev.localTestNote]), false⟩

/-!  Helper lemmas. -/

theorem mem_of_headEq {α : Type} {l : List α} {a : α} (h : l.head? = some a) : a ∈ l := by
  cases l with
  | nil => simp at h
  | cons b t =>
    simp [List.head?] at h
    subst h
    exact List.mem_cons_self b t

theorem research_mem (r : RE) :
    ∀ (cs : List Char) (caps : List (Nat × List Char)), research r cs = some caps →
      ∃ cs' pr, pr ∈ matchRE r cs' ∧ pr.1 = caps := by
  intro cs
  induction cs with
  | nil =>
    intro caps h
    simp [research] at h
    obtain ⟨rest, hmem⟩ := h
    exact ⟨[], (caps, rest), mem_of_headEq hmem, rfl⟩
  | cons c t ih =>
    intro caps h
    unfold research at h
    cases hh : (matchRE r (c :: t)).head? with
    | some pr =>
      rw [hh] at h
      simp at h
      exact ⟨c :: t, pr, mem_of_headEq hh, h⟩
    | none =>
      rw [hh] at h
      exact ih caps h

theorem reCat_cons (r : RE) (rs : List RE) : reCat (r :: rs) = RE.seq r (reCat rs) := rfl

theorem mem_matchRE_seq {a b : RE} {cs : List Char}
    {pr : List (Nat × List Char) × List Char} :
    pr ∈ matchRE (RE.seq a b) cs ↔
      ∃ w, w ∈ matchRE a cs ∧ ∃ q, q ∈ matchRE b w.2 ∧ pr = (w.1 ++ q.1, q.2) := by
  simp only [matchRE, List.mem_flatMap, List.mem_map]
  constructor
  · rintro ⟨w, hw, q, hq, hpr⟩
    exact ⟨w, hw, q, hq, hpr.symm⟩
  · rintro ⟨w, hw, q, hq, hpr⟩
    exact ⟨w, hw, q, hq, hpr.symm⟩

theorem mem_matchRE_grp {n : Nat} {r : RE} {cs : List Char}
    {pr : List (Nat × List Char) × List Char} :
    pr ∈ matchRE (RE.grp n r) cs ↔
      ∃ w, w ∈ matchRE r cs ∧
        pr = (w.1 ++ [(n, cs.take (cs.length - w.2.length))], w.2) := by
  simp only [matchRE, List.mem_map]
  constructor
  · rintro ⟨w, hw, hpr⟩
    exact ⟨w, hw, hpr.symm⟩
  · rintro ⟨w, hw, hpr⟩
    exact ⟨w, hw, hpr.symm⟩

theorem mem_matchRE_lit {l cs : List Char} {pr : List (Nat × List Char) × List Char} :
    pr ∈ matchRE (RE.lit l) cs ↔ l.isPrefixOf cs = true ∧ pr = ([], cs.drop l.length) := by
  simp only [matchRE]
  split
  next h => simp [h]
  next h => simp [h]

theorem mem_matchRE_alt {a b : RE} {cs : List Char}
    {pr : List (Nat × List Char) × List Char} :
    pr ∈ matchRE (RE.alt a b) cs ↔ pr ∈ matchRE a cs ∨ pr ∈ matchRE b cs := by
  simp [matchRE]

theorem takeEqOfIsPrefixOf :
    ∀ (l cs : List Char), l.isPrefixOf cs = true →
      cs.take l.length = l ∧ l.length ≤ cs.length := by
  intro l
  induction l with
  | nil => intro cs _; simp
  | cons a t ih =>
    intro cs h
    cases cs with
    | nil => simp [List.isPrefixOf] at h
    | cons b u =>
      simp only [List.isPrefixOf, Bool.and_eq_true, beq_iff_eq] at h
      obtain ⟨hab, htu⟩ := h
      obtain ⟨h1, h2⟩ := ih u htu
      subst hab
      constructor
      · simp [List.take, h1]
      · simp [Nat.succ_le_succ h2]

theorem isPrefixOf_decomp :
    ∀ (l cs : List Char), l.isPrefixOf cs = true → cs = l ++ cs.drop l.length := by
  intro l
  induction l with
  | nil => intro cs _; simp
  | cons a t ih =>
    intro cs h
    cases cs with
    | nil => simp [List.isPrefixOf] at h
    | cons b u =>
      simp only [List.isPrefixOf, Bool.and_eq_true, beq_iff_eq] at h
      obtain ⟨hab, htu⟩ := h
      subst hab
      simp only [List.length_cons, List.drop_succ_cons, List.cons_append, List.cons.injEq,
        true_and]
      exact ih u htu

theorem grpTwoLitsCap (l1 l2 cs : List Char)
    (h1 : l1.isPrefixOf cs = true) (h2 : l2.isPrefixOf (cs.drop l1.length) = true) :
    cs.take (cs.length - ((cs.drop l1.length).drop l2.length).length) = l1 ++ l2 := by
  have hcs : cs = (l1 ++ l2) ++ ((cs.drop l1.length).drop l2.length) := by
    conv_lhs => rw [isPrefixOf_decomp _ _ h1]
    rw [List.append_assoc]
    congr 1
    exact isPrefixOf_decomp _ _ h2
  have hlen0 := congrArg List.length hcs
  simp only [List.length_append] at hlen0
  have hlen : cs.length - ((cs.drop l1.length).drop l2.length).length =
      (l1 ++ l2).length := by
    simp only [List.length_append]
    omega
  rw [hlen]
  conv_lhs => rw [hcs]
  exact List.take_left _ _

theorem netBookLabel_caps (cs : List Char) (pr : List (Nat × List Char) × List Char)
    (hmem : pr ∈ matchRE (RE.grp 1 reNetBookLabel) cs) :
    pr.1 = [(1, "Net Book Added".data)] ∨ pr.1 = [(1, "Net Book Liquidated".data)] := by
  rw [mem_matchRE_grp] at hmem
  obtain ⟨w, hw, hpr⟩ := hmem
  rw [reNetBookLabel, mem_matchRE_seq] at hw
  obtain ⟨u, hu, v, hv, hweq⟩ := hw
  rw [mem_matchRE_lit] at hu
  obtain ⟨hpre1, hueq⟩ := hu
  rw [mem_matchRE_alt] at hv
  subst hueq
  rcases hv with hv | hv
  · left
    rw [mem_matchRE_lit] at hv
    obtain ⟨hpre2, hveq⟩ := hv
    subst hveq
    subst hweq
    subst hpr
    simp only [List.nil_append]
    have hcap := grpTwoLitsCap "Net Book ".data "Added".data cs hpre1 hpre2
    exact congrArg (fun x => [(1, x)]) (hcap.trans (by decide))
  · right
    rw [mem_matchRE_lit] at hv
    obtain ⟨hpre2, hveq⟩ := hv
    subst hveq
    subst hweq
    subst hpr
    simp only [List.nil_append]
    have hcap := grpTwoLitsCap "Net Book ".data "Liquidated".data cs hpre1 hpre2
    exact congrArg (fun x => [(1, x)]) (hcap.trans (by decide))

theorem research_netBook_label (cs : List Char) (caps : List (Nat × List Char))
    (h : research reNetBook cs = some caps) :
    getCap caps 1 = "Net Book Added" ∨ getCap caps 1 = "Net Book Liquidated" := by
  obtain ⟨cs', pr, hmem, hcaps⟩ := research_mem reNetBook cs caps h
  rw [reNetBook, reCat_cons, mem_matchRE_seq] at hmem
  obtain ⟨w, hw, q, hq, hpr⟩ := hmem
  have hlab := netBookLabel_caps cs' w hw
  subst hcaps
  rw [hpr]
  rcases hlab with h1 | h1 <;> [left; right] <;>
    · show getCap (w.1 ++ q.1) 1 = _
      rw [h1]
      simp [getCap, List.find?]

theorem fetch_mtf_none_iff (text : String) :
    fetch_mtf_data text = none ↔
      (research reNetBook text.data = none ∨ research rePosAdded text.data = none ∨
       research rePosLiq text.data = none ∨ research reIndustry text.data = none) := by
  unfold fetch_mtf_data
  cases h1 : research reNetBook text.data <;>
    cases h2 : research rePosAdded text.data <;>
      cases h3 : research rePosLiq text.data <;>
        cases h4 : research reIndustry text.data <;>
          simp [h1, h2, h3, h4]

theorem fetch_mtf_v1_none_iff (text : String) :
    fetch_mtf_data_v1 text = none ↔
      (research rePosAdded text.data = none ∨ research rePosLiqV1 text.data = none ∨
       research reNetBookV1 text.data = none ∨ research reIndustry text.data = none) := by
  unfold fetch_mtf_data_v1
  cases h1 : research rePosAdded text.data <;>
    cases h2 : research rePosLiqV1 text.data <;>
      cases h3 : research reNetBookV1 text.data <;>
        cases h4 : research reIndustry text.data <;>
          simp [h1, h2, h3, h4]

theorem fetchTickers_none_iff (yfd : String → Option (String × String)) :
    ∀ l : List (String × String),
      (fetchTickers yfd l = none ↔ ∃ p, p ∈ l ∧ yfd p.2 = none) := by
  intro l
  induction l with
  | nil => simp [fetchTickers]
  | cons p rest ih =>
    obtain ⟨name, symbol⟩ := p
    constructor
    · intro h
      unfold fetchTickers at h
      cases hy : yfd symbol with
      | none => exact ⟨(name, symbol), List.mem_cons_self _ _, hy⟩
      | some vc =>
        rw [hy] at h
        simp at h
        obtain ⟨pp, hmem, hnone⟩ := ih.mp h
        exact ⟨pp, List.mem_cons_of_mem _ hmem, hnone⟩
    · rintro ⟨pp, hmem, hnone⟩
      unfold fetchTickers
      rcases List.mem_cons.mp hmem with heq | hmem2
      · subst heq
        rw [hnone]
      · cases hy : yfd symbol with
        | none => rfl
        | some vc =>
          have hrest := ih.mpr ⟨pp, hmem2, hnone⟩
          rw [hrest]
          rfl

theorem fetchTickers_keys (yfd : String → Option (String × String)) :
    ∀ (l : List (String × String)) (d : List (String × (String × String))),
      fetchTickers yfd l = some d → d.map Prod.fst = l.map Prod.fst := by
  intro l
  induction l with
  | nil =>
    intro d h
    simp [fetchTickers] at h
    subst h
    simp
  | cons p rest ih =>
    obtain ⟨name, symbol⟩ := p
    intro d h
    unfold fetchTickers at h
    cases hy : yfd symbol with
    | none => rw [hy] at h; simp at h
    | some vc =>
      rw [hy] at h
      cases hr : fetchTickers yfd rest with
      | none => rw [hr] at h; simp at h
      | some dr =>
        rw [hr] at h
        simp at h
        subst h
        simp only [List.map_cons]
        rw [ih dr hr]

theorem decDigit_isDigit (n : ℕ) : isDigitChar (decDigit n) = true := by
  have h : n % 10 < 10 := Nat.mod_lt _ (by norm_num)
  unfold decDigit
  set k := n % 10 with hk
  interval_cases k <;> decide

theorem natDigitsAux_sublen :
    ∀ (fuel n : ℕ) (acc : List Char), acc.length ≤ (natDigitsAux fuel n acc).length := by
  intro fuel
  induction fuel with
  | zero => intro n acc; simp [natDigitsAux]
  | succ f ih =>
    intro n acc
    unfold natDigitsAux
    split
    · simp
    · calc acc.length ≤ (decDigit (n % 10) :: acc).length := by simp
        _ ≤ _ := ih (n / 10) _

theorem natDigitsAux_digits :
    ∀ (fuel n : ℕ) (acc : List Char), acc.all isDigitChar = true →
      (natDigitsAux fuel n acc).all isDigitChar = true := by
  intro fuel
  induction fuel with
  | zero => intro n acc h; exact h
  | succ f ih =>
    intro n acc h
    unfold natDigitsAux
    split
    · simp [List.all_cons, decDigit_isDigit, h]
    · exact ih _ _ (by simp [List.all_cons, decDigit_isDigit, h])

theorem natDigits_digits (n : ℕ) : (natDigits n).all isDigitChar = true :=
  natDigitsAux_digits _ _ _ rfl

theorem natDigits_ne_nil (n : ℕ) : natDigits n ≠ [] := by
  unfold natDigits natDigitsAux
  split
  · simp
  · intro hcon
    have h := natDigitsAux_sublen n (n / 10) [decDigit (n % 10)]
    rw [hcon] at h
    simp at h

theorem rhe_intCast (z : ℤ) : rhe ((z : ℤ) : ℚ) = z := by
  unfold rhe
  rw [Rat.num_intCast, Rat.den_intCast]
  norm_num

theorem fmtSignedPct_head (q : ℚ) :
    (fmtSignedPct q).data.head? = some (if q < 0 then '-' else '+') := by
  unfold fmtSignedPct
  by_cases h : q < 0 <;> simp [h]

theorem fmtSignedPct_shape (q : ℚ) : signedTwoDecPct (fmtSignedPct q) := by
  unfold fmtSignedPct signedTwoDecPct
  refine ⟨if q < 0 then '-' else '+',
    natDigits ((rhe (|q| * 100)).toNat / 100),
    decDigit ((rhe (|q| * 100)).toNat % 100 / 10),
    decDigit ((rhe (|q| * 100)).toNat % 100 % 10), ?_, ?_,
    natDigits_ne_nil _, natDigits_digits _, decDigit_isDigit _, decDigit_isDigit _⟩
  · by_cases h : q < 0 <;> simp [h, twoFrac]
  · by_cases h : q < 0 <;> simp [h]

theorem fmtThousands2_shape (q : ℚ) : twoDecTail (fmtThousands2 q) := by
  unfold fmtThousands2 twoDecTail
  refine ⟨(if q < 0 then ['-'] else []) ++
      groupThousands (natDigits ((rhe (|q| * 100)).toNat / 100)),
    decDigit ((rhe (|q| * 100)).toNat % 100 / 10),
    decDigit ((rhe (|q| * 100)).toNat % 100 % 10), ?_,
    decDigit_isDigit _, decDigit_isDigit _⟩
  simp [twoFrac]

theorem mtf_sample_eval : fetch_mtf_data mtfSampleText = some mtfSampleActual := by decide

/-!  Claim theorems. -/

/-- C2, counterexample: on the literal fabricated page text, the extractor
of src/api/index.py maps "Positions Liquidated" to "₹-6,085.26 Cr" (the
captured minus sign is prepended to the numeric value, after the currency
symbol) and "Net Book Added" to "₹+529.10 Cr" (the captured plus sign is
kept), not to the claimed "-₹6,085.26 Cr" and "₹529.10 Cr". -/
theorem C2_counterexample :
    fetch_mtf_data mtfSampleText = some mtfSampleActual ∧
    lookupQ mtfSampleActual "Positions Liquidated" = some "₹-6,085.26 Cr" ∧
    lookupQ mtfSampleActual "Net Book Added" = some "₹+529.10 Cr" ∧
    lookupQ mtfSampleActual "Positions Liquidated" ≠ some "-₹6,085.26 Cr" ∧
    lookupQ mtfSampleActual "Net Book Added" ≠ some "₹529.10 Cr" :=
  ⟨mtf_sample_eval, by decide, by decide, by decide, by decide⟩

/-- C2, amended: applied to the literal fabricated page text, fetch_mtf_data
returns exactly the record mapping date to "Jul 18, 2025", "Net Book Added"
to "₹+529.10 Cr", "Positions Added" to "₹6,614.35 Cr",
"Positions Liquidated" to "₹-6,085.26 Cr", and "Industry MTF Book" to
"₹88,878.24 Cr": captured sign characters are prepended to the numeric
value after the currency symbol, and a captured plus sign is kept. -/
theorem C2_literal_extraction :
    fetch_mtf_data mtfSampleText =
      some [("date", "Jul 18, 2025"),
            ("Net Book Added", "₹+529.10 Cr"),
            ("Positions Added", "₹6,614.35 Cr"),
            ("Positions Liquidated", "₹-6,085.26 Cr"),
            ("Industry MTF Book", "₹88,878.24 Cr")] := by
  rw [mtf_sample_eval]
  rfl

/-- C3, counterexample: the extractor variant in src/tweet_bot.py does not
return absence when a required currency figure is missing; on a page text
without the "Industry MTF Book" figure it still returns a record, with the
placeholder value "N/A" for the missing field. -/
theorem C3_counterexample :
    research reIndustry mtfTextNoIndustry.data = none ∧
    fetch_mtf_data_v0 mtfTextNoIndustry =
      [("date", "Jul 18, 2025"),
       ("Positions Added", "₹1.00 Cr"),
       ("Positions Liquidated", "₹2.00 Cr"),
       ("Net Book Added", "₹3.00 Cr"),
       ("Net Industry MTF Book", "N/A")] := by
  constructor
  · decide
  · decide

/-- C3, amended: the extractors of src/api/index.py and of
src/tweet_bot/tweet_bot.py are all-or-nothing over the currency fields:
the extraction returns absence exactly when one of the four required
currency patterns fails to match, so no record with a missing or
placeholder currency field is ever returned by them.  (The older variant
in src/tweet_bot.py instead substitutes "N/A", see the counterexample.) -/
theorem C3_all_or_nothing (text : String) :
    (fetch_mtf_data text = none ↔
      (research reNetBook text.data = none ∨ research rePosAdded text.data = none ∨
       research rePosLiq text.data = none ∨ research reIndustry text.data = none)) ∧
    (fetch_mtf_data_v1 text = none ↔
      (research rePosAdded text.data = none ∨ research rePosLiqV1 text.data = none ∨
       research reNetBookV1 text.data = none ∨ research reIndustry text.data = none)) :=
  ⟨fetch_mtf_none_iff text, fetch_mtf_v1_none_iff text⟩

/-- C3, witness: on the page text missing the "Industry MTF Book" figure,
both all-or-nothing extractors return absence. -/
theorem C3_witness :
    fetch_mtf_data mtfTextNoIndustry = none ∧ fetch_mtf_data_v1 mtfTextNoIndustry = none := by
  constructor
  · exact (C3_all_or_nothing mtfTextNoIndustry).1.mpr (Or.inr (Or.inr (Or.inr (by decide))))
  · exact (C3_all_or_nothing mtfTextNoIndustry).2.mpr (Or.inr (Or.inr (Or.inr (by decide))))

/-- C5, counterexample: the quote fetcher variant in src/tweet_bot.py,
given a history with a single closing price, returns the placeholder quote
("N/A", "+0.00%") instead of absence. -/
theorem C5_counterexample :
    [(100 : ℚ)].length < 2 ∧ get_yfinance_data_v0 [(100 : ℚ)] = ("N/A", "+0.00%") :=
  ⟨by norm_num, by decide⟩

/-- C5, amended: the quote fetchers of src/tweet_bot/tweet_bot.py and of
src/api/index.py return absence whenever fewer than two valid (non-null)
closing prices are available; they never build a quote from one point.
(The older variant in src/tweet_bot.py instead returns a placeholder
quote, see the counterexample.) -/
theorem C5_insufficient_history (hist : List ℚ) (histo : List (Option ℚ)) :
    (hist.length < 2 → get_yfinance_data hist = none) ∧
    ((histo.filterMap id).length < 2 → get_yfinance_data_api histo = none) := by
  constructor
  · intro h
    unfold get_yfinance_data
    rw [if_pos h]
  · intro h
    unfold get_yfinance_data_api
    rw [if_pos h]

/-- C5, witness: a one-point history and a two-row history with one null
row both yield absence. -/
theorem C5_witness :
    get_yfinance_data [(100 : ℚ)] = none ∧
    get_yfinance_data_api [some (100 : ℚ), none] = none := by
  have h := C5_insufficient_history [(100 : ℚ)] [some (100 : ℚ), none]
  exact ⟨h.1 (by norm_num), h.2 (by decide)⟩

/-- C9: when the fetch step of a job produced no data, main (v1) aborts
with a failure exit before any step is performed: no image is created and
no post is attempted. -/
theorem C9_failed_fetch_halts (α : Type) (data : Option α) (post : Bool)
    (h : data = none) :
    (main_run data post).failed = true ∧ (main_run data post).events = [] ∧
    Ev.imageCreated ∉ (main_run data post).events ∧
    Ev.posted ∉ (main_run data post).events := by
  subst h
  simp [main_run]

/-- C9, witness: the concrete failed run performs no step and fails. -/
theorem C9_witness :
    (main_run (none : Option (List (String × String))) true).failed = true ∧
    (main_run (none : Option (List (String × String))) true).events = [] ∧
    Ev.imageCreated ∉ (main_run (none : Option (List (String × String))) true).events ∧
    Ev.posted ∉ (main_run (none : Option (List (String × String))) true).events :=
  C9_failed_fetch_halts _ none true rfl

/-- C1: under the strict policy (fetch_global_market_data of
src/tweet_bot/tweet_bot.py), a failed GIFT NIFTY scrape or any failed
ticker fetch makes the whole aggregation return absence, and any non-absent
snapshot carries exactly the six fixed labels in presentation order. -/
theorem C1_strict_aggregation (gift : Option (String × String))
    (yfd : String → Option (String × String)) :
    ((gift = none ∨ ∃ p, p ∈ tickers ∧ yfd p.2 = none) →
      fetch_global_market_data gift yfd = none) ∧
    (∀ d, fetch_global_market_data gift yfd = some d → d.map Prod.fst = globalLabels) := by
  constructor
  · rintro (h | h)
    · subst h
      rfl
    · cases gift with
      | none => rfl
      | some gq =>
        unfold fetch_global_market_data
        rw [(fetchTickers_none_iff yfd tickers).mpr h]
        rfl
  · intro d h
    cases gift with
    | none => simp [fetch_global_market_data] at h
    | some gq =>
      unfold fetch_global_market_data at h
      cases ht : fetchTickers yfd tickers with
      | none => rw [ht] at h; simp at h
      | some dt =>
        rw [ht] at h
        simp at h
        have hk := fetchTickers_keys yfd tickers dt ht
        rw [← h]
        simp only [List.map_cons]
        rw [hk]
        decide

/-- C1, witness: a failed GIFT NIFTY scrape yields absence, and a snapshot
built from six successful sources carries the six labels in order. -/
theorem C1_witness :
    fetch_global_market_data none (fun _ => none) = none ∧
    ([("GIFTNIFTY", ("25,012.50", "-0.80%")),
      ("Nikkei 225", ("1.00", "+0.10%")),
      ("Dow Jones Futures", ("1.00", "+0.10%")),
      ("S&P 500", ("1.00", "+0.10%")),
      ("Nasdaq", ("1.00", "+0.10%")),
      ("Hang Seng", ("1.00", "+0.10%"))].map Prod.fst) = globalLabels := by
  constructor
  · exact (C1_strict_aggregation none (fun _ => none)).1 (Or.inl rfl)
  · exact (C1_strict_aggregation (some ("25,012.50", "-0.80%"))
      (fun _ => some ("1.00", "+0.10%"))).2 _ (by decide)

/-- C4: on a history whose last two closes are prev and cur with prev
nonzero, the quote is the pair of the latest close formatted with grouped
thousands and two decimals, and the percent change (cur - prev) / prev * 100
formatted with a forced sign and two decimals and a percent suffix; the
sign is a minus exactly for a negative change and a plus otherwise (zero
included). -/
theorem C4_percent_change_formula (prevq curq : ℚ) (rest : List ℚ)
    (hprev : prevq ≠ 0) :
    get_yfinance_data (rest ++ [prevq, curq]) =
      some (fmtThousands2 curq, fmtSignedPct ((curq - prevq) / prevq * 100)) ∧
    (fmtSignedPct ((curq - prevq) / prevq * 100)).data.head? =
      some (if (curq - prevq) / prevq * 100 < 0 then '-' else '+') ∧
    signedTwoDecPct (fmtSignedPct ((curq - prevq) / prevq * 100)) ∧
    twoDecTail (fmtThousands2 curq) := by
  refine ⟨?_, fmtSignedPct_head _, fmtSignedPct_shape _, fmtThousands2_shape _⟩
  unfold get_yfinance_data
  rw [if_neg (by simp)]
  rw [show (rest ++ [prevq, curq]).reverse = curq :: prevq :: rest.reverse by simp]

/-- C4, witness: two closes 100 then 110 give the quote
("110.00", "+10.00%"). -/
theorem C4_witness :
    get_yfinance_data [(100 : ℚ), 110] = some ("110.00", "+10.00%") := by
  have h := (C4_percent_change_formula 100 110 [] (by norm_num)).1
  simp only [List.nil_append] at h
  rw [h]
  have e1 : fmtThousands2 (110 : ℚ) = "110.00" := by
    unfold fmtThousands2
    rw [show |(110 : ℚ)| * 100 = ((11000 : ℤ) : ℚ) by norm_num, rhe_intCast]
    rw [if_neg (by norm_num : ¬ ((110 : ℚ) < 0))]
    decide
  have e2 : fmtSignedPct (((110 : ℚ) - 100) / 100 * 100) = "+10.00%" := by
    rw [show ((110 : ℚ) - 100) / 100 * 100 = 10 by norm_num]
    unfold fmtSignedPct
    rw [show |(10 : ℚ)| * 100 = ((1000 : ℤ) : ℚ) by norm_num, rhe_intCast]
    rw [if_neg (by norm_num : ¬ ((10 : ℚ) < 0))]
    decide
  rw [e1, e2]

/-- C6: a snapshot carrying all six labels is rendered by the global
caption builder as one header line, one line per label in the fixed
presentation order (whatever the order of the snapshot's own entries),
and the fixed hashtag suffix. -/
theorem C6_caption_order (today : String) (data : List (String × (String × String)))
    (v₁ c₁ v₂ c₂ v₃ c₃ v₄ c₄ v₅ c₅ v₆ c₆ : String)
    (h₁ : lookupQ data "GIFTNIFTY" = some (v₁, c₁))
    (h₂ : lookupQ data "Nikkei 225" = some (v₂, c₂))
    (h₃ : lookupQ data "Dow Jones Futures" = some (v₃, c₃))
    (h₄ : lookupQ data "S&P 500" = some (v₄, c₄))
    (h₅ : lookupQ data "Nasdaq" = some (v₅, c₅))
    (h₆ : lookupQ data "Hang Seng" = some (v₆, c₆)) :
    build_tweet_lines_global today data =
      [("Global Market Update – " ++ today ++ "\n"),
       "GIFTNIFTY" ++ (": " ++ v₁ ++ " (" ++ c₁ ++ ")"),
       "Nikkei 225" ++ (": " ++ v₂ ++ " (" ++ c₂ ++ ")"),
       "Dow Jones Futures" ++ (": " ++ v₃ ++ " (" ++ c₃ ++ ")"),
       "S&P 500" ++ (": " ++ v₄ ++ " (" ++ c₄ ++ ")"),
       "Nasdaq" ++ (": " ++ v₅ ++ " (" ++ c₅ ++ ")"),
       "Hang Seng" ++ (": " ++ v₆ ++ " (" ++ c₆ ++ ")"),
       globalHashtags] := by
  unfold build_tweet_lines_global
  simp [globalLabels, lookupD, h₁, h₂, h₃, h₄, h₅, h₆]

/-- C6, witness: a snapshot listed in scrambled entry order still renders
in the fixed presentation order. -/
theorem C6_witness :
    build_tweet_lines_global "19 Jul, 2025"
      [("Hang Seng", ("6.00", "+0.06%")),
       ("Nasdaq", ("5.00", "-0.05%")),
       ("S&P 500", ("4.00", "+0.04%")),
       ("Dow Jones Futures", ("3.00", "-0.03%")),
       ("Nikkei 225", ("2.00", "+0.02%")),
       ("GIFTNIFTY", ("1.00", "-0.01%"))] =
      ["Global Market Update – 19 Jul, 2025\n",
       "GIFTNIFTY: 1.00 (-0.01%)",
       "Nikkei 225: 2.00 (+0.02%)",
       "Dow Jones Futures: 3.00 (-0.03%)",
       "S&P 500: 4.00 (+0.04%)",
       "Nasdaq: 5.00 (-0.05%)",
       "Hang Seng: 6.00 (+0.06%)",
       "\n#GIFTNIFTY #Nifty #DowJones #Nasdaq #Nikkei #HangSeng"] := by
  rw [C6_caption_order "19 Jul, 2025"
      [("Hang Seng", ("6.00", "+0.06%")),
       ("Nasdaq", ("5.00", "-0.05%")),
       ("S&P 500", ("4.00", "+0.04%")),
       ("Dow Jones Futures", ("3.00", "-0.03%")),
       ("Nikkei 225", ("2.00", "+0.02%")),
       ("GIFTNIFTY", ("1.00", "-0.01%"))]
      "1.00" "-0.01%" "2.00" "+0.02%" "3.00" "-0.03%"
      "4.00" "+0.04%" "5.00" "-0.05%" "6.00" "+0.06%"
      (by decide) (by decide) (by decide) (by decide) (by decide) (by decide)]
  decide

/-- C7: whenever the extractor of src/api/index.py returns a record, the
net-book search matched, its captured label is one of "Net Book Added" and
"Net Book Liquidated", the record's keys are exactly date, that captured
label, and the three fixed labels, and each of the two net-book labels
occurs among the keys exactly when it is the captured one — the label is
detected from the page, never hardcoded. -/
theorem C7_polymorphic_net_book (text : String) (r : List (String × String))
    (h : fetch_mtf_data text = some r) :
    ∃ caps, research reNetBook text.data = some caps ∧
      (getCap caps 1 = "Net Book Added" ∨ getCap caps 1 = "Net Book Liquidated") ∧
      r.map Prod.fst =
        ["date", getCap caps 1, "Positions Added", "Positions Liquidated",
         "Industry MTF Book"] ∧
      ("Net Book Added" ∈ r.map Prod.fst ↔ getCap caps 1 = "Net Book Added") ∧
      ("Net Book Liquidated" ∈ r.map Prod.fst ↔ getCap caps 1 = "Net Book Liquidated") := by
  unfold fetch_mtf_data at h
  cases h1 : research reNetBook text.data with
  | none => simp [h1] at h
  | some capsNB =>
    cases h2 : research rePosAdded text.data with
    | none => simp [h1, h2] at h
    | some capsPA =>
      cases h3 : research rePosLiq text.data with
      | none => simp [h1, h2, h3] at h
      | some capsPL =>
        cases h4 : research reIndustry text.data with
        | none => simp [h1, h2, h3, h4] at h
        | some capsI =>
          simp only [h1, h2, h3, h4, Option.some.injEq] at h
          have hlab := research_netBook_label text.data capsNB h1
          have hkeys : r.map Prod.fst =
              ["date", getCap capsNB 1, "Positions Added", "Positions Liquidated",
               "Industry MTF Book"] := by
            rw [← h]
            rfl
          refine ⟨capsNB, rfl, hlab, hkeys, ?_, ?_⟩
          · rw [hkeys]
            simp only [List.mem_cons, List.not_mem_nil, or_false]
            constructor
            · rintro (hc | hc | hc | hc | hc)
              · exact absurd hc (by decide)
              · exact hc.symm
              · exact absurd hc (by decide)
              · exact absurd hc (by decide)
              · exact absurd hc (by decide)
            · intro hl
              exact Or.inr (Or.inl hl.symm)
          · rw [hkeys]
            simp only [List.mem_cons, List.not_mem_nil, or_false]
            constructor
            · rintro (hc | hc | hc | hc | hc)
              · exact absurd hc (by decide)
              · exact hc.symm
              · exact absurd hc (by decide)
              · exact absurd hc (by decide)
              · exact absurd hc (by decide)
            · intro hl
              exact Or.inr (Or.inl hl.symm)

/-- C7, witness: on a liquidation-day page the returned record carries the
key "Net Book Liquidated" and not "Net Book Added". -/
theorem C7_witness :
    ∃ caps, research reNetBook mtfSampleTextLiq.data = some caps ∧
      (getCap caps 1 = "Net Book Added" ∨ getCap caps 1 = "Net Book Liquidated") ∧
      ([("date", "Dec 03, 2025"),
        ("Net Book Liquidated", "₹-3.00 Cr"),
        ("Positions Added", "₹1.00 Cr"),
        ("Positions Liquidated", "₹-2.00 Cr"),
        ("Industry MTF Book", "₹4.00 Cr")] : List (String × String)).map Prod.fst =
        ["date", getCap caps 1, "Positions Added", "Positions Liquidated",
         "Industry MTF Book"] ∧
      ("Net Book Added" ∈
          ([("date", "Dec 03, 2025"),
            ("Net Book Liquidated", "₹-3.00 Cr"),
            ("Positions Added", "₹1.00 Cr"),
            ("Positions Liquidated", "₹-2.00 Cr"),
            ("Industry MTF Book", "₹4.00 Cr")] : List (String × String)).map Prod.fst ↔
        getCap caps 1 = "Net Book Added") ∧
      ("Net Book Liquidated" ∈
          ([("date", "Dec 03, 2025"),
            ("Net Book Liquidated", "₹-3.00 Cr"),
            ("Positions Added", "₹1.00 Cr"),
            ("Positions Liquidated", "₹-2.00 Cr"),
            ("Industry MTF Book", "₹4.00 Cr")] : List (String × String)).map Prod.fst ↔
        getCap caps 1 = "Net Book Liquidated") :=
  C7_polymorphic_net_book mtfSampleTextLiq _ (by decide)

/-- C8, counterexample: the extractor variant in src/tweet_bot.py does not
flag a missing date; on a page text carrying all four currency figures but
no date it substitutes the fabricated concrete date "Jul 18, 2025". -/
theorem C8_counterexample :
    research reDate mtfTextNoDate.data = none ∧
    lookupQ (fetch_mtf_data_v0 mtfTextNoDate) "date" = some "Jul 18, 2025" ∧
    lookupQ (fetch_mtf_data_v0 mtfTextNoDate) "date" ≠ some "Date not found" := by
  refine ⟨by decide, by decide, by decide⟩

/-- C8: when the date pattern is absent from the page text, the extraction
of src/api/index.py still succeeds exactly when the four currency figures
are present, and any record it returns (likewise any record the v1
extractor returns) carries the flag "Date not found" as its date — no
concrete date is fabricated. -/
theorem C8_date_degrades (text : String) (h : research reDate text.data = none) :
    (fetch_mtf_data text = none ↔
      (research reNetBook text.data = none ∨ research rePosAdded text.data = none ∨
       research rePosLiq text.data = none ∨ research reIndustry text.data = none)) ∧
    (∀ r, fetch_mtf_data text = some r → lookupQ r "date" = some "Date not found") ∧
    (∀ r, fetch_mtf_data_v1 text = some r → lookupQ r "date" = some "Date not found") := by
  refine ⟨fetch_mtf_none_iff text, ?_, ?_⟩
  · intro r hr
    unfold fetch_mtf_data at hr
    cases h1 : research reNetBook text.data with
    | none => simp [h1] at hr
    | some capsNB =>
      cases h2 : research rePosAdded text.data with
      | none => simp [h1, h2] at hr
      | some capsPA =>
        cases h3 : research rePosLiq text.data with
        | none => simp [h1, h2, h3] at hr
        | some capsPL =>
          cases h4 : research reIndustry text.data with
          | none => simp [h1, h2, h3, h4] at hr
          | some capsI =>
            simp only [h, h1, h2, h3, h4, Option.some.injEq] at hr
            rw [← hr]
            rfl
  · intro r hr
    unfold fetch_mtf_data_v1 at hr
    cases h1 : research rePosAdded text.data with
    | none => simp [h1] at hr
    | some capsPA =>
      cases h2 : research rePosLiqV1 text.data with
      | none => simp [h1, h2] at hr
      | some capsPL =>
        cases h3 : research reNetBookV1 text.data with
        | none => simp [h1, h2, h3] at hr
        | some capsNB =>
          cases h4 : research reIndustry text.data with
          | none => simp [h1, h2, h3, h4] at hr
          | some capsI =>
            simp only [h, h1, h2, h3, h4, Option.some.injEq] at hr
            rw [← hr]
            rfl

/-- C8, witness: a page text with all four figures but no date yields a
record whose date field is the flag "Date not found". -/
theorem C8_witness :
    lookupQ [("date", "Date not found"),
             ("Net Book Added", "₹+3.00 Cr"),
             ("Positions Added", "₹1.00 Cr"),
             ("Positions Liquidated", "₹-2.00 Cr"),
             ("Industry MTF Book", "₹4.00 Cr")] "date" = some "Date not found" :=
  (C8_date_degrades mtfTextNoDate (by decide)).2.1 _ (by decide)

/-- C10 (implicit): for every snapshot, partial or empty, the global
caption builder emits exactly eight lines (header, one line per fixed
label, hashtag suffix), and every label absent from the snapshot is
rendered as the placeholder line with value "N/A" and change "+0.00%"
rather than omitted. -/
theorem C10_placeholder_lines (today : String)
    (data : List (String × (String × String))) :
    (build_tweet_lines_global today data).length = 8 ∧
    ∀ key, key ∈ globalLabels → lookupQ data key = none →
      (key ++ ": N/A (+0.00%)") ∈ build_tweet_lines_global today data := by
  constructor
  · simp [build_tweet_lines_global, globalLabels]
  · intro key hk hnone
    have hd : lookupD data key ("N/A", "+0.00%") = ("N/A", "+0.00%") := by
      simp [lookupD, hnone]
    have hsfx : (key ++ ": N/A (+0.00%)") =
        key ++ (": " ++ "N/A" ++ " (" ++ "+0.00%" ++ ")") := by
      exact congrArg (fun s => key ++ s) (by decide)
    rw [hsfx]
    unfold build_tweet_lines_global
    apply List.mem_cons_of_mem
    apply List.mem_append_left
    refine List.mem_map.mpr ⟨key, hk, ?_⟩
    simp [hd]

/-- C10, witness: on the empty snapshot the caption still has eight lines
and renders the GIFTNIFTY placeholder line. -/
theorem C10_witness :
    (build_tweet_lines_global "19 Jul, 2025" []).length = 8 ∧
    ("GIFTNIFTY" ++ ": N/A (+0.00%)") ∈ build_tweet_lines_global "19 Jul, 2025" [] :=
  ⟨(C10_placeholder_lines "19 Jul, 2025" []).1,
   (C10_placeholder_lines "19 Jul, 2025" []).2 "GIFTNIFTY" (by decide) (by decide)⟩

end TweetBot
